import Mathlib

/-!
Verification of the RSS ingestion/enrichment/dedup pipeline implemented in
`src/assets/pages/resources/blog/BlogMain.py`.

The Python code is shallowly embedded below.  Strings are Lean `String`s
(lists of Unicode scalar values, matching Python's codepoint strings);
SQLite rows become a list of `FeedPost` records; the `blog_posts` table's
`AUTOINCREMENT` id counter is carried explicitly.  Python-level behaviour
that the claims depend on (the `re` module's ASCII character classes,
`str.lower`, `str.strip`, SQLite's default `LIKE` semantics, SQLite's
changed-row count for `INSERT ... ON CONFLICT DO UPDATE`) is modelled on
its ASCII fragment, which is the fragment the claims and the table's
trigger data live in; each definition notes the concrete source construct
it embeds.
-/

namespace BlogMain

/-- The twenty-six ASCII upper/lower letter pairs. -/
def asciiLowerTable : List (Char × Char) :=
  [('A', 'a'), ('B', 'b'), ('C', 'c'), ('D', 'd'), ('E', 'e'), ('F', 'f'),
   ('G', 'g'), ('H', 'h'), ('I', 'i'), ('J', 'j'), ('K', 'k'), ('L', 'l'),
   ('M', 'm'), ('N', 'n'), ('O', 'o'), ('P', 'p'), ('Q', 'q'), ('R', 'r'),
   ('S', 's'), ('T', 't'), ('U', 'u'), ('V', 'v'), ('W', 'w'), ('X', 'x'),
   ('Y', 'y'), ('Z', 'z')]

/-- ASCII lower-casing of one character, the fragment of Python's
`str.lower()` relevant here and exactly SQLite's default case folding for
`LIKE` (both fold only the twenty-six ASCII letters `A`-`Z`). -/
def lowerChar (c : Char) : Char :=
  match asciiLowerTable.find? (fun p => p.1 == c) with
  | some p => p.2
  | none => c

/-- Embedding of Python `text.lower()` (ASCII fragment). -/
def strLower (s : String) : String := ⟨s.data.map lowerChar⟩

/-- Boolean test that `l1` is a leading segment of `l2`. -/
def isPrefixB : List Char → List Char → Bool
  | [], _ => true
  | _ :: _, [] => false
  | a :: l1, b :: l2 => a == b && isPrefixB l1 l2

/-- Boolean test that `l1` occurs contiguously inside `l2`. -/
def isInfixB : List Char → List Char → Bool
  | l1, [] => isPrefixB l1 []
  | l1, b :: t2 => isPrefixB l1 (b :: t2) || isInfixB l1 t2

/-- Embedding of Python's `needle in hay` substring test on `str`. -/
def containsStr (hay needle : String) : Bool := isInfixB needle.data hay.data

/-- Embedding of `re.sub(r'[^\x00-\x7F]+', '', s)` from `extract_feed_entry`
(source line 117): every maximal run of characters with codepoint above
`0x7F` is deleted, i.e. exactly the characters with codepoint at most
`0x7F` are kept, in order. -/
def stripNonAscii (s : String) : String := ⟨s.data.filter (fun c => c.val ≤ 0x7F)⟩

/-- The ASCII characters Python's `str.strip()` and the regex class `\s`
treat as whitespace: space, tab, newline, vertical tab, form feed,
carriage return. -/
def isPySpace (c : Char) : Bool :=
  c == ' ' || c == '\t' || c == '\n' || c == '\r' || c.val == 11 || c.val == 12

/-- The ASCII fragment of Python's regex class `\w`: letters, digits and
the underscore. -/
def isPyWordChar (c : Char) : Bool := c.isAlphanum || c == '_'

/-- Embedding of Python `s.strip()` (ASCII fragment): drop leading and
trailing whitespace. -/
def pythonStrip (s : String) : String :=
  ⟨((s.data.dropWhile isPySpace).reverse.dropWhile isPySpace).reverse⟩

/-- Embedding of `re.sub(r'[^\w\s]', '', query)` from `search`
(source line 226): keep exactly the word characters and whitespace. -/
def sanitize (s : String) : String :=
  ⟨s.data.filter (fun c => isPyWordChar c || isPySpace c)⟩

/-- The fixed sector table of `identify_sector` (source lines 79-88), in
source order.  Note that the trigger `"Olympics"` is spelled with a
capital letter in the source. -/
def sectors : List (String × List String) :=
  [("Defense", ["military", "army", "navy", "defense"]),
   ("Government", ["policy", "election", "government", "minister"]),
   ("Sports", ["football", "cricket", "Olympics", "sports"]),
   ("Crime", ["crime", "murder", "theft", "fraud"]),
   ("Entertainment", ["movie", "film", "actor", "celebrity"]),
   ("Financial", ["stocks", "market", "finance", "investment"]),
   ("Energy", ["oil", "gas", "energy", "renewable"]),
   ("Technology", ["cybersecurity", "microsoft", "network", "data science",
                   "machine learning", "information technology", "technology",
                   "artificial intelligence"])]

/-- The `for sector, keywords in sectors.items()` loop of `identify_sector`:
return the first table entry one of whose triggers occurs literally in the
(already lower-cased) text, else fall through. -/
def firstSector : List (String × List String) → String → String
  | [], _ => "General"
  | sk :: rest, tl =>
    if sk.2.any (fun k => containsStr tl k) then sk.1 else firstSector rest tl

/-- Embedding of `identify_sector` (source lines 78-93): lower-case the
text, then scan the table in order; `"General"` when nothing matches. -/
def identify_sector (text : String) : String := firstSector sectors (strLower text)

/-- One persisted row of the `blog_posts` table (source lines 41-52). -/
structure FeedPost where
  id : Nat
  title : String
  description : String
  author : String
  categories : String
  sentiment : String
  sector : String
  keywords : String
  published_at : String
  link : String
deriving DecidableEq

/-- The nine-tuple of values bound by `cursor.execute` in
`fetch_blog_posts` (source line 185), i.e. one normalized entry ready to
be upserted. -/
structure EntryData where
  title : String
  description : String
  author : String
  categories : String
  sentiment : String
  sector : String
  keywords : String
  published_at : String
  link : String
deriving DecidableEq

/-- The `blog_posts` table plus its `AUTOINCREMENT` counter. -/
structure Store where
  rows : List FeedPost
  nextId : Nat
deriving DecidableEq

/-- The freshly re-created database of `init_db`: no rows, ids start at 1. -/
def emptyStore : Store := ⟨[], 1⟩

/-- The `DO UPDATE SET` arm of the upsert (source lines 176-184): every
column except `id` and the conflict key `published_at` is overwritten with
the excluded row's value (the key is equal on both sides of the conflict,
so leaving it in place is exact). -/
def applyUpdate (e : EntryData) (r : FeedPost) : FeedPost :=
  { r with title := e.title, description := e.description, author := e.author,
           categories := e.categories, sentiment := e.sentiment,
           sector := e.sector, keywords := e.keywords, link := e.link }

/-- Embedding of the `INSERT INTO blog_posts ... ON CONFLICT(published_at)
DO UPDATE SET ...` statement (source lines 173-185) together with the
`cursor.rowcount` it reports.  SQLite's `changes()` counts the row written
by either arm — including a conflict update that writes values identical
to the stored ones — so the reported count is 1 whenever the statement
succeeds. -/
def upsert (st : Store) (e : EntryData) : Store × Nat :=
  if st.rows.any (fun r => r.published_at == e.published_at) then
    (⟨st.rows.map (fun r => if r.published_at == e.published_at then applyUpdate e r else r),
      st.nextId⟩, 1)
  else
    (⟨st.rows ++ [⟨st.nextId, e.title, e.description, e.author, e.categories,
                  e.sentiment, e.sector, e.keywords, e.published_at, e.link⟩],
      st.nextId + 1⟩, 1)

/-- The `UNIQUE` constraint on `published_at` (source line 50), as an
invariant on reachable table states. -/
def UniqKeys (st : Store) : Prop :=
  st.rows.Pairwise (fun a b => a.published_at ≠ b.published_at)

/-- One raw feed entry as `extract_feed_entry` reads it: each field may be
absent.  `tags = some ts` models `'tags' in entry` with term list `ts`
(possibly empty); `tags = none` models the key being absent. -/
structure RawEntry where
  title : Option String
  description : Option String
  author : Option String
  tags : Option (List String)
  published : Option String
  link : Option String

/-- Embedding of `extract_feed_entry` (source lines 116-141).  The two
external NLP capabilities — TextBlob polarity behind `analyze_sentiment`
and the spaCy pipeline behind `extract_keywords`/`json.dumps` — are not
part of this repository's code and are passed in as the functions
`sentimentOf` and `keywordsOf` from the concatenated title/description
text, exactly as the source calls them. -/
def extract_feed_entry (sentimentOf keywordsOf : String → String) (e : RawEntry) : EntryData :=
  let title := stripNonAscii (e.title.getD "No Title")
  let description := stripNonAscii (e.description.getD "No Description")
  let text := title ++ " " ++ description
  { title := title
    description := description
    author := e.author.getD "Unknown Author"
    categories :=
      match e.tags with
      | some ts => String.intercalate ", " ts
      | none => "Uncategorized"
    sentiment := sentimentOf text
    sector := identify_sector text
    keywords := keywordsOf text
    published_at := e.published.getD "Unknown Date"
    link := e.link.getD "No Link" }

/-- Matching of the query `q` against a leading segment of `s` under
SQLite `LIKE` semantics: `_` matches any single character, every other
character matches ASCII-case-insensitively. -/
def likeHere : List Char → List Char → Bool
  | [], _ => true
  | _ :: _, [] => false
  | c :: qs, d :: ds => (c == '_' || lowerChar c == lowerChar d) && likeHere qs ds

/-- Embedding of the SQL expression `col LIKE ?` with the bound pattern
`f'%...%'` built in `search` (source line 235).  The sanitized query can
never contain `%` (it is not a word or space character), so the pattern's
only `%` wildcards are the outer two and the match holds exactly when
some contiguous segment of the column matches the query under `likeHere`.
SQLite's default `LIKE` is ASCII-case-insensitive (`case_sensitive_like`
is off and no `ESCAPE` clause is given). -/
def likeContains : List Char → List Char → Bool
  | q, [] => likeHere q []
  | q, d :: ds => likeHere q (d :: ds) || likeContains q ds

/-- The `WHERE title LIKE ? OR description LIKE ? OR categories LIKE ?`
row filter of the search statement (source lines 230-235). -/
def rowMatches (q : String) (r : FeedPost) : Bool :=
  likeContains q.data r.title.data || likeContains q.data r.description.data ||
    likeContains q.data r.categories.data

/-- The `SELECT ... FROM blog_posts WHERE ...` of `search`: all rows
passing the three-way `LIKE` filter, in table order. -/
def searchRows (st : Store) (q : String) : List FeedPost :=
  st.rows.filter (rowMatches q)

/-- Embedding of the `/search` endpoint body (source lines 221-239):
strip the raw query, reject (HTTP 400) when empty or longer than 100
characters, otherwise sanitize and run the `LIKE` query. -/
def search (st : Store) (rawQuery : String) : Except Nat (List FeedPost) :=
  let query := pythonStrip rawQuery
  if query.length = 0 ∨ query.length > 100 then Except.error 400
  else Except.ok (searchRows st (sanitize query))

/-- What happens to one entry of a parsed feed inside the entry loop of
`fetch_blog_posts` (source lines 162-194): `ok e` — `extract_feed_entry`
returns the tuple `e` and the upsert executes; `opError` — the execute
raises `sqlite3.OperationalError`, which the inner handler catches, so the
entry is skipped; `raiseOther` — some statement of the entry's processing
(e.g. `extract_feed_entry` on a malformed entry) raises any other
exception, which no inner handler catches. -/
inductive EntryStep where
  | ok (e : EntryData)
  | opError
  | raiseOther
deriving DecidableEq

/-- The result of `feedparser.parse` for one URL: `bozo` — the parse
failed (`feed.bozo` set, source line 156), the feed is skipped; `parsed`
— the feed's entry list. -/
inductive FeedResult where
  | bozo
  | parsed (entries : List EntryStep)
deriving DecidableEq

/-- How one call of `fetch_blog_posts` ends: `completed` — the loop over
feeds finished, with the final table state and the aggregate
`total_new_posts`; `aborted` — an uncaught exception inside the loop
propagated to the cycle-level `except Exception` handler (source line
201), which logs it and returns, leaving the table as it was at the
moment of the raise. -/
inductive CycleOutcome where
  | completed (st : Store) (total : Nat)
  | aborted (st : Store)
deriving DecidableEq

/-- The `for entry in feed.entries` loop of `fetch_blog_posts` with its
per-entry `new_posts` counter: each successful upsert commits on its own,
`sqlite3.OperationalError` is caught per entry, any other exception
propagates (carrying the table state already committed). -/
def processEntries (st : Store) (newPosts : Nat) : List EntryStep → Except Store (Store × Nat)
  | [] => Except.ok (st, newPosts)
  | EntryStep.ok e :: rest =>
    processEntries (upsert st e).1
      (if (upsert st e).2 > 0 then newPosts + 1 else newPosts) rest
  | EntryStep.opError :: rest => processEntries st newPosts rest
  | EntryStep.raiseOther :: _ => Except.error st

/-- The `for feed_url in rss_feed_urls` loop of `fetch_blog_posts`:
`bozo` feeds are logged and skipped with `continue`; an exception escaping
a feed's entry loop reaches the cycle-level handler and ends the whole
cycle. -/
def processFeeds (st : Store) (total : Nat) : List FeedResult → CycleOutcome
  | [] => CycleOutcome.completed st total
  | FeedResult.bozo :: rest => processFeeds st total rest
  | FeedResult.parsed es :: rest =>
    match processEntries st 0 es with
    | Except.ok (st2, n) => processFeeds st2 (total + n) rest
    | Except.error st2 => CycleOutcome.aborted st2

/-- Embedding of one Fetch Cycle (`fetch_blog_posts`, source lines
144-202) over the parse results of the configured feeds, starting from
table state `st`. -/
def fetch_blog_posts (st : Store) (feeds : List FeedResult) : CycleOutcome :=
  processFeeds st 0 feeds

/-- Modelled from the spec: a printable ASCII character (the spec's
"printable ASCII range"), codepoints 0x20 through 0x7E. -/
def isPrintableAscii (c : Char) : Bool := 32 ≤ c.val && c.val ≤ 126

/-- Modelled from the spec: the sector scan as the spec describes it — a
genuinely case-insensitive membership lookup, i.e. the triggers are
case-folded too. -/
def firstSectorCI : List (String × List String) → String → String
  | [], _ => "General"
  | sk :: rest, tl =>
    if sk.2.any (fun k => containsStr tl (strLower k)) then sk.1
    else firstSectorCI rest tl

/-- Modelled from the spec: `identify_sector` as the spec's words state
it (case-insensitive trigger lookup, first table entry wins, `"General"`
fallback). -/
def identify_sector_ci (text : String) : String :=
  firstSectorCI sectors (strLower text)

/-- The sector table with the one dead trigger (`"Olympics"`, which
contains an upper-case letter and therefore can never occur in lower-cased
text) removed; used to state the amended form of the sector claim. -/
def sectorsEffective : List (String × List String) :=
  [("Defense", ["military", "army", "navy", "defense"]),
   ("Government", ["policy", "election", "government", "minister"]),
   ("Sports", ["football", "cricket", "sports"]),
   ("Crime", ["crime", "murder", "theft", "fraud"]),
   ("Entertainment", ["movie", "film", "actor", "celebrity"]),
   ("Financial", ["stocks", "market", "finance", "investment"]),
   ("Energy", ["oil", "gas", "energy", "renewable"]),
   ("Technology", ["cybersecurity", "microsoft", "network", "data science",
                   "machine learning", "information technology", "technology",
                   "artificial intelligence"])]

/-- The amended sector classifier: literal trigger lookup in the
lower-cased text over the effective table. -/
def identify_sector_amended (text : String) : String :=
  firstSector sectorsEffective (strLower text)

/-- Modelled from the spec's words for the search claim's amendment:
ASCII-case-insensitive substring occurrence of the query in a field. -/
def ciContains (q s : String) : Bool :=
  isInfixB (q.data.map lowerChar) (s.data.map lowerChar)

/-! Concrete data used by witnesses and counterexamples. -/

/-- A table state holding one record keyed `"2024-01-01"`. -/
def c1store : Store := ⟨[⟨5, "Old", "OldD", "OldA", "OldC", "OldS", "OldSec", "OldK", "2024-01-01", "OldL"⟩], 6⟩

/-- A first entry carrying the key `"2024-01-01"`. -/
def c1e : EntryData := ⟨"New1", "D1", "A1", "C1", "S1", "Sec1", "K1", "2024-01-01", "L1"⟩

/-- A second entry with the same key but another title. -/
def c1e2 : EntryData := ⟨"New2", "D2", "A2", "C2", "S2", "Sec2", "K2", "2024-01-01", "L2"⟩

/-- An entry for the second feed of the aborted-cycle scenario. -/
def c2entry : EntryData := ⟨"T2", "D2", "A2", "C2", "Neutral", "General", "K2", "2024-02-02", "L2"⟩

/-- The row `c2entry` produces when inserted into the empty table. -/
def c2row : FeedPost := ⟨1, "T2", "D2", "A2", "C2", "Neutral", "General", "K2", "2024-02-02", "L2"⟩

/-- A record whose title is `"Storm"` with a capital letter. -/
def c3post : FeedPost := ⟨1, "Storm", "No Description", "A", "Uncategorized", "Neutral", "General", "kw", "2024-03-03", "L"⟩

/-- A one-record table for the search counterexample. -/
def c3store : Store := ⟨[c3post], 2⟩

/-- An entry upserted twice for the counting counterexample. -/
def c4entry : EntryData := ⟨"T4", "D4", "A4", "C4", "Neutral", "General", "K4", "2024-04-04", "L4"⟩

/-- A stand-in for the external sentiment capability. -/
def cSentiment : String → String := fun _ => "Neutral"

/-- A stand-in for the external keyword-extraction capability. -/
def cKeywords : String → String := fun _ => "kw"

/-- A raw entry whose title carries an ASCII control character (BEL). -/
def c6entry : RawEntry := ⟨some "Alert\x07", none, none, none, none, none⟩

/-- A raw entry with two tags. -/
def c7entry : RawEntry := ⟨none, none, none, some ["security", "ai"], none, none⟩

/-- A raw entry whose tag list is present but empty. -/
def c7empty : RawEntry := ⟨none, none, none, some [], none, none⟩

/-- A table with records `"Alpha Storm"` and `"Beta"`. -/
def c8store : Store := ⟨[⟨1, "Alpha Storm", "d", "a", "c", "s", "g", "k", "p1", "l"⟩,
                        ⟨2, "Beta", "d", "a", "c", "s", "g", "k", "p2", "l"⟩], 3⟩

/-- A two-record table for the symbols-only-query witness. -/
def c9store : Store := ⟨[⟨1, "Alpha", "d", "a", "c", "s", "g", "k", "p1", "l"⟩,
                        ⟨2, "Beta", "d", "a", "c", "s", "g", "k", "p2", "l"⟩], 3⟩

/-- A first undated raw entry. -/
def c10e1 : RawEntry := ⟨some "First", none, none, none, none, none⟩

/-- A second undated raw entry. -/
def c10e2 : RawEntry := ⟨some "Second", none, none, none, none, none⟩

/-! Helper lemmas shared by the claim theorems. -/

open List

theorem isPrefixB_iff (l1 l2 : List Char) : isPrefixB l1 l2 = true ↔ l1 <+: l2 := by
  induction l1 generalizing l2 with
  | nil => simp [isPrefixB, nil_prefix]
  | cons a t ih =>
    cases l2 with
    | nil => simp [isPrefixB, prefix_nil]
    | cons b t2 => simp [isPrefixB, cons_prefix_cons, ih]

theorem isInfixB_iff (l1 l2 : List Char) : isInfixB l1 l2 = true ↔ l1 <:+: l2 := by
  induction l2 with
  | nil => simp [isInfixB, isPrefixB_iff, infix_nil, prefix_nil]
  | cons b t2 ih => simp [isInfixB, isPrefixB_iff, infix_cons_iff, ih]

theorem lowerChar_ne_O (c : Char) : lowerChar c ≠ 'O' := by
  unfold lowerChar
  cases hf : asciiLowerTable.find? (fun p => p.1 == c) with
  | some p =>
    have htab : ∀ q ∈ asciiLowerTable, q.2 ≠ 'O' := by decide
    exact htab p (List.mem_of_find?_eq_some hf)
  | none =>
    have hO := List.find?_eq_none.mp hf ('O', 'o') (by decide)
    intro h
    simp only [] at h
    exact hO (by simp [h])

theorem olympics_dead (s : String) : containsStr (strLower s) "Olympics" = false := by
  rw [Bool.eq_false_iff]
  intro h
  unfold containsStr at h
  have h2 := (isInfixB_iff _ _).mp h
  have hmem : 'O' ∈ (strLower s).data := h2.subset (by decide)
  rw [show (strLower s).data = s.data.map lowerChar from rfl] at hmem
  obtain ⟨c, _, hc⟩ := List.mem_map.mp hmem
  exact lowerChar_ne_O c hc

theorem likeHere_iff (q s : List Char) (hq : ∀ c ∈ q, c ≠ '_') :
    likeHere q s = true ↔ q.map lowerChar <+: s.map lowerChar := by
  induction q generalizing s with
  | nil => simp [likeHere, nil_prefix]
  | cons c qs ih =>
    cases s with
    | nil => simp [likeHere, prefix_nil]
    | cons d ds =>
      have hc : (c == '_') = false := by
        simpa using hq c (by simp)
      simp [likeHere, hc, cons_prefix_cons, ih _ (fun x hx => hq x (by simp [hx]))]

theorem likeContains_iff (q s : List Char) (hq : ∀ c ∈ q, c ≠ '_') :
    likeContains q s = true ↔ q.map lowerChar <:+: s.map lowerChar := by
  induction s with
  | nil => simp [likeContains, likeHere_iff q [] hq, infix_nil, prefix_nil]
  | cons d ds ih => simp [likeContains, likeHere_iff q (d :: ds) hq, infix_cons_iff, ih]

theorem likeContains_nil_query (s : List Char) : likeContains [] s = true := by
  induction s with
  | nil => rfl
  | cons d ds ih => simp [likeContains, likeHere]

theorem rowMatches_empty_query (r : FeedPost) : rowMatches "" r = true := by
  simp [rowMatches, likeContains_nil_query]

theorem searchRows_empty_query (st : Store) : searchRows st "" = st.rows := by
  unfold searchRows
  exact filter_eq_self.mpr (fun r _ => rowMatches_empty_query r)

theorem dropWhile_eq_self_of_false (p : Char → Bool) (l : List Char)
    (h : ∀ c ∈ l, p c = false) : l.dropWhile p = l := by
  cases l with
  | nil => rfl
  | cons a t => simp [List.dropWhile_cons, h a (by simp)]

theorem pythonStrip_eq_self (q : String) (h : ∀ c ∈ q.data, isPySpace c = false) :
    pythonStrip q = q := by
  obtain ⟨l⟩ := q
  unfold pythonStrip
  rw [dropWhile_eq_self_of_false _ _ h,
      dropWhile_eq_self_of_false _ _ (fun c hc => h c (by simpa using hc)),
      List.reverse_reverse]

theorem stripNonAscii_all_ascii (s : String) :
    (stripNonAscii s).data.all (fun c => c.val ≤ 0x7F) = true := by
  rw [List.all_eq_true]
  intro c hc
  exact (List.mem_filter.mp hc).2

theorem stripNonAscii_eq_self (s : String) (h : s.data.all (fun c => c.val ≤ 0x7F) = true) :
    stripNonAscii s = s := by
  obtain ⟨l⟩ := s
  unfold stripNonAscii
  exact congrArg String.mk (filter_eq_self.mpr (List.all_eq_true.mp h))

theorem applyUpdate_published_at (e : EntryData) (r : FeedPost) :
    (applyUpdate e r).published_at = r.published_at := rfl

theorem updRow_published_at (e : EntryData) (r : FeedPost) :
    (if r.published_at == e.published_at then applyUpdate e r else r).published_at
      = r.published_at := by
  split <;> rfl

theorem countP_key_eq_one (l : List FeedPost) (k : String)
    (hU : l.Pairwise (fun a b => a.published_at ≠ b.published_at))
    (hex : ∃ r ∈ l, r.published_at = k) :
    l.countP (fun r => r.published_at == k) = 1 := by
  induction l with
  | nil => simp at hex
  | cons a t ih =>
    rcases List.pairwise_cons.mp hU with ⟨ha, ht⟩
    by_cases hak : a.published_at = k
    · have ht0 : t.countP (fun r => r.published_at == k) = 0 := by
        rw [List.countP_eq_zero]
        intro b hb hbk
        exact ha b hb (by rw [hak, beq_iff_eq.mp hbk])
      rw [List.countP_cons, ht0]
      simp [hak]
    · have hex2 : ∃ r ∈ t, r.published_at = k := by
        obtain ⟨r, hr, hrk⟩ := hex
        cases List.mem_cons.mp hr with
        | inl h => rw [h] at hrk; exact absurd hrk hak
        | inr h => exact ⟨r, h, hrk⟩
      rw [List.countP_cons, ih ht hex2]
      simp [hak]

theorem upsert_snd (st : Store) (e : EntryData) : (upsert st e).2 = 1 := by
  unfold upsert
  split <;> rfl

theorem upsert_preserves_uniq (st : Store) (e : EntryData) (hU : UniqKeys st) :
    UniqKeys (upsert st e).1 := by
  unfold UniqKeys upsert
  split
  · show (st.rows.map fun r =>
        if r.published_at == e.published_at then applyUpdate e r else r).Pairwise
        (fun a b => a.published_at ≠ b.published_at)
    rw [pairwise_map]
    exact hU.imp (fun {a b} hab => by
      rw [updRow_published_at, updRow_published_at]
      exact hab)
  · rename_i hany
    show (st.rows ++ ([⟨st.nextId, e.title, e.description, e.author, e.categories,
        e.sentiment, e.sector, e.keywords, e.published_at, e.link⟩] : List FeedPost)).Pairwise
        (fun a b => a.published_at ≠ b.published_at)
    rw [pairwise_append]
    refine ⟨hU, pairwise_singleton _ _, ?_⟩
    intro a ha b hb
    rw [List.mem_singleton] at hb
    subst hb
    show a.published_at ≠ e.published_at
    intro hcontra
    exact hany (List.any_eq_true.mpr ⟨a, ha, beq_iff_eq.mpr hcontra⟩)

theorem upsert_key_exists (st : Store) (e : EntryData) :
    ∃ r ∈ (upsert st e).1.rows, r.published_at = e.published_at := by
  unfold upsert
  split
  · rename_i hany
    obtain ⟨r0, hr0, hk⟩ := List.any_eq_true.mp hany
    refine ⟨applyUpdate e r0, ?_, ?_⟩
    · exact List.mem_map.mpr ⟨r0, hr0, by rw [if_pos hk]⟩
    · rw [applyUpdate_published_at]
      exact beq_iff_eq.mp hk
  · exact ⟨⟨st.nextId, e.title, e.description, e.author, e.categories,
            e.sentiment, e.sector, e.keywords, e.published_at, e.link⟩,
           by simp, rfl⟩

theorem upsert_countP (st : Store) (e : EntryData) (hU : UniqKeys st) :
    (upsert st e).1.rows.countP (fun r => r.published_at == e.published_at) = 1 :=
  countP_key_eq_one _ _ (upsert_preserves_uniq st e hU) (upsert_key_exists st e)

theorem upsert_mem_applyUpdate (st : Store) (e : EntryData) (r0 : FeedPost)
    (hr0 : r0 ∈ st.rows) (hk : r0.published_at = e.published_at) :
    applyUpdate e r0 ∈ (upsert st e).1.rows := by
  unfold upsert
  have hany : (st.rows.any fun r => r.published_at == e.published_at) = true :=
    List.any_eq_true.mpr ⟨r0, hr0, beq_iff_eq.mpr hk⟩
  rw [if_pos hany]
  exact List.mem_map.mpr ⟨r0, hr0, by rw [if_pos (beq_iff_eq.mpr hk)]⟩

theorem upsert_overwrite (st : Store) (e : EntryData)
    (hex : ∃ r0 ∈ st.rows, r0.published_at = e.published_at) :
    ∀ r ∈ (upsert st e).1.rows, r.published_at = e.published_at →
      ∃ r1 ∈ st.rows, r1.published_at = e.published_at ∧ r = applyUpdate e r1 := by
  unfold upsert
  obtain ⟨r0, h0, h0k⟩ := hex
  have hany : (st.rows.any fun r => r.published_at == e.published_at) = true :=
    List.any_eq_true.mpr ⟨r0, h0, beq_iff_eq.mpr h0k⟩
  rw [if_pos hany]
  intro r hr hrk
  obtain ⟨r1, hr1, hfr⟩ := List.mem_map.mp hr
  by_cases h1 : r1.published_at = e.published_at
  · exact ⟨r1, hr1, h1, by rw [← hfr, if_pos (beq_iff_eq.mpr h1)]⟩
  · rw [if_neg (by simpa using h1)] at hfr
    rw [← hfr] at hrk
    exact absurd hrk h1

/-! The claims. -/

/-- Claim C1: upsert is keyed by `published_at` — after an upsert there is
exactly one record with the entry's `published_at`; a pre-existing record
with that key has all fields except `id` overwritten with the entry's
values (`applyUpdate`); and upserting a second entry with the same
`published_at` leaves exactly one record under that key, whose title is
the second entry's title and whose `id` is the id the record already had. -/
theorem C1_upsert_keyed_by_published_at (st : Store) (e e2 : EntryData)
    (hU : UniqKeys st) (hk : e2.published_at = e.published_at) :
    (upsert st e).1.rows.countP (fun r => r.published_at == e.published_at) = 1
    ∧ (∀ r0 ∈ st.rows, r0.published_at = e.published_at →
        applyUpdate e r0 ∈ (upsert st e).1.rows)
    ∧ (upsert (upsert st e).1 e2).1.rows.countP
        (fun r => r.published_at == e.published_at) = 1
    ∧ ∀ r ∈ (upsert (upsert st e).1 e2).1.rows, r.published_at = e.published_at →
        r.title = e2.title ∧ ∃ r1 ∈ (upsert st e).1.rows,
          r1.published_at = e.published_at ∧ r.id = r1.id := by
  have hU1 : UniqKeys (upsert st e).1 := upsert_preserves_uniq st e hU
  have hex1 : ∃ r ∈ (upsert st e).1.rows, r.published_at = e2.published_at := by
    rw [hk]
    exact upsert_key_exists st e
  refine ⟨upsert_countP st e hU, ?_, ?_, ?_⟩
  · intro r0 h0 h0k
    exact upsert_mem_applyUpdate st e r0 h0 h0k
  · have h2 := upsert_countP (upsert st e).1 e2 hU1
    rw [hk] at h2
    exact h2
  · intro r hr hrk
    obtain ⟨r1, hr1, hr1k, hre⟩ := upsert_overwrite (upsert st e).1 e2 hex1 r hr (by rw [hk, hrk])
    rw [hk] at hr1k
    exact ⟨by rw [hre]; rfl, r1, hr1, hr1k, by rw [hre]; rfl⟩

/-- Witness for C1 at a concrete store and entries. -/
theorem C1_witness :
    UniqKeys c1store ∧ c1e2.published_at = c1e.published_at
    ∧ ((upsert c1store c1e).1.rows.countP
        (fun r => r.published_at == c1e.published_at) = 1
      ∧ (∀ r0 ∈ c1store.rows, r0.published_at = c1e.published_at →
          applyUpdate c1e r0 ∈ (upsert c1store c1e).1.rows)
      ∧ (upsert (upsert c1store c1e).1 c1e2).1.rows.countP
          (fun r => r.published_at == c1e.published_at) = 1
      ∧ ∀ r ∈ (upsert (upsert c1store c1e).1 c1e2).1.rows,
          r.published_at = c1e.published_at →
          r.title = c1e2.title ∧ ∃ r1 ∈ (upsert c1store c1e).1.rows,
            r1.published_at = c1e.published_at ∧ r.id = r1.id) :=
  ⟨by unfold UniqKeys; decide, by decide,
   C1_upsert_keyed_by_published_at c1store c1e c1e2 (by unfold UniqKeys; decide) (by decide)⟩

/-- Counterexample to claim C2 as stated: a cycle over two feeds where the
first feed's only entry raises a normalization error does not continue
with the remaining feed — it is aborted by the cycle-level handler with
the store untouched — although the second feed alone would have stored
its record.  A single entry's failure therefore does abort the cycle. -/
theorem C2_counterexample :
    fetch_blog_posts emptyStore
        [FeedResult.parsed [EntryStep.raiseOther], FeedResult.parsed [EntryStep.ok c2entry]]
      = CycleOutcome.aborted emptyStore
    ∧ fetch_blog_posts emptyStore [FeedResult.parsed [EntryStep.ok c2entry]]
      = CycleOutcome.completed ⟨[c2row], 2⟩ 1 := by decide

/-- Claim C2 amended: a malformed-feed parse condition (`bozo`) skips only
that feed, and a `sqlite3.OperationalError` during an entry's upsert skips
only that entry; but any other unexpected error while processing a feed's
entries (an entry-normalization error included) propagates to the
cycle-level handler and ends the whole Fetch Cycle — the remaining entries
and feeds of that cycle are skipped, with the store kept as already
committed. -/
theorem C2_single_failure_isolation_amended (st : Store) (total n : Nat)
    (rest : List FeedResult) (es : List EntryStep) :
    processFeeds st total (FeedResult.bozo :: rest) = processFeeds st total rest
    ∧ processEntries st n (EntryStep.opError :: es) = processEntries st n es
    ∧ processEntries st n (EntryStep.raiseOther :: es) = Except.error st
    ∧ processFeeds st total (FeedResult.parsed (EntryStep.raiseOther :: es) :: rest)
      = CycleOutcome.aborted st :=
  ⟨rfl, rfl, rfl, rfl⟩

/-- Counterexample to claim C3 as stated: the query `"storm"` is not a
case-sensitive substring of any field of the stored record, yet the
search statement returns the record, because SQLite's `LIKE` compares
ASCII characters case-insensitively. -/
theorem C3_counterexample :
    searchRows c3store "storm" = [c3post]
    ∧ containsStr c3post.title "storm" = false
    ∧ containsStr c3post.description "storm" = false
    ∧ containsStr c3post.categories "storm" = false := by
  refine ⟨by rfl, by decide, by decide, by decide⟩

/-- Claim C3 amended: for queries without the `LIKE` wildcards `_` and `%`
(the sanitized queries contain no `%`), the search statement returns
exactly those records for which the query occurs as an
ASCII-case-insensitive substring of the title, the description, or the
categories (three independent OR'd tests); an empty result list — not an
error — is returned when nothing matches. -/
theorem C3_search_substring_amended (st : Store) (q : String)
    (hq : ∀ c ∈ q.data, c ≠ '_' ∧ c ≠ '%') :
    searchRows st q = st.rows.filter
      (fun r => ciContains q r.title || ciContains q r.description
        || ciContains q r.categories) := by
  unfold searchRows
  apply filter_congr
  intro r _
  have h1 : ∀ s : String, likeContains q.data s.data
      = isInfixB (q.data.map lowerChar) (s.data.map lowerChar) := by
    intro s
    rw [Bool.eq_iff_iff, likeContains_iff _ _ (fun c hc => (hq c hc).1), isInfixB_iff]
  unfold rowMatches ciContains
  rw [h1, h1, h1]

/-- Witness for C3's amended theorem at a concrete store and query. -/
theorem C3_witness :
    (∀ c ∈ "storm".data, c ≠ '_' ∧ c ≠ '%')
    ∧ searchRows c3store "storm" = c3store.rows.filter
        (fun r => ciContains "storm" r.title || ciContains "storm" r.description
          || ciContains "storm" r.categories) :=
  ⟨by decide, C3_search_substring_amended c3store "storm" (by decide)⟩

/-- Counterexample to claim C4 as stated: re-upserting an entry whose
stored fields are already identical leaves the store unchanged (a logical
no-op), yet the statement still reports one changed row, so the entry is
counted — `processEntries` ends with count 1, not 0. -/
theorem C4_counterexample :
    (upsert (upsert emptyStore c4entry).1 c4entry).1 = (upsert emptyStore c4entry).1
    ∧ (upsert (upsert emptyStore c4entry).1 c4entry).2 = 1
    ∧ processEntries (upsert emptyStore c4entry).1 0 [EntryStep.ok c4entry]
      = Except.ok ((upsert emptyStore c4entry).1, 1) :=
  ⟨by decide, by decide, by rfl⟩

/-- Claim C4 amended: under SQLite's semantics the upsert statement
reports one changed row whenever it succeeds — the conflict-update row
counts as changed even when the written values equal the stored ones — so
the per-feed counter counts every successful upsert, logical no-ops
included. -/
theorem C4_upsert_count_amended (st : Store) (e : EntryData) (n : Nat)
    (rest : List EntryStep) :
    (upsert st e).2 = 1
    ∧ processEntries st n (EntryStep.ok e :: rest)
      = processEntries (upsert st e).1 (n + 1) rest := by
  refine ⟨upsert_snd st e, ?_⟩
  show processEntries (upsert st e).1
      (if (upsert st e).2 > 0 then n + 1 else n) rest = _
  rw [upsert_snd]
  norm_num

/-- Counterexample to claim C5 as stated: the text `"Olympics"` contains a
Sports trigger up to case, so a case-insensitive lookup classifies it as
`"Sports"`, but the code returns `"General"` — the lookup lower-cases the
text only, not the triggers, and the trigger `"Olympics"` can never
match. -/
theorem C5_counterexample :
    identify_sector "Olympics" = "General"
    ∧ identify_sector_ci "Olympics" = "Sports" := by decide

/-- Claim C5 amended: the classifier tests each trigger literally for
membership in the lower-cased text; every trigger except `"Olympics"` is
entirely lower-case, so those behave case-insensitively, while
`"Olympics"` never matches; the first sector in table order with a
matching trigger wins, and `"General"` is returned when none matches —
i.e. the classifier coincides with the first-match scan over the table
with the dead trigger removed. -/
theorem C5_sector_lookup_amended (text : String) :
    identify_sector text = identify_sector_amended text := by
  unfold identify_sector identify_sector_amended
  simp only [sectors, sectorsEffective, firstSector, List.any_cons, List.any_nil,
    olympics_dead, Bool.or_false, Bool.false_or]

/-- Counterexample to claim C6 as stated: a title carrying the ASCII
control character BEL (`0x07`) passes the normalizer unchanged — the
regex removes only characters above `0x7F` — so the stored title is not
made of printable ASCII characters only. -/
theorem C6_counterexample :
    (extract_feed_entry cSentiment cKeywords c6entry).title = "Alert\x07"
    ∧ ((extract_feed_entry cSentiment cKeywords c6entry).title).data.all
        isPrintableAscii = false := by decide

/-- Claim C6 amended: the normalizer removes from the title and the
description exactly the characters outside the ASCII range (codepoint
above `0x7F`); the stored title and description therefore contain only
ASCII characters — ASCII control characters included, so not necessarily
printable ones — and a string that is already all-ASCII is kept
verbatim. -/
theorem C6_strip_non_ascii_amended (sOf kOf : String → String) (e : RawEntry) :
    ((extract_feed_entry sOf kOf e).title).data.all (fun c => c.val ≤ 0x7F) = true
    ∧ ((extract_feed_entry sOf kOf e).description).data.all (fun c => c.val ≤ 0x7F) = true
    ∧ ∀ s : String, s.data.all (fun c => c.val ≤ 0x7F) = true → stripNonAscii s = s := by
  refine ⟨?_, ?_, fun s h => stripNonAscii_eq_self s h⟩
  · show (stripNonAscii (e.title.getD "No Title")).data.all _ = true
    exact stripNonAscii_all_ascii _
  · show (stripNonAscii (e.description.getD "No Description")).data.all _ = true
    exact stripNonAscii_all_ascii _

/-- Witness for C6's amended theorem at a concrete entry and string. -/
theorem C6_witness :
    ((extract_feed_entry cSentiment cKeywords c6entry).title).data.all
        (fun c => c.val ≤ 0x7F) = true
    ∧ "Alert".data.all (fun c => c.val ≤ 0x7F) = true
    ∧ stripNonAscii "Alert" = "Alert" :=
  ⟨(C6_strip_non_ascii_amended cSentiment cKeywords c6entry).1, by decide,
   (C6_strip_non_ascii_amended cSentiment cKeywords c6entry).2.2 "Alert" (by decide)⟩

/-- Counterexample to claim C7 as stated: an entry whose tag list is
present but empty is normalized to the empty string, not to the sentinel
`"Uncategorized"`. -/
theorem C7_counterexample :
    (extract_feed_entry cSentiment cKeywords c7empty).categories = ""
    ∧ (extract_feed_entry cSentiment cKeywords c7empty).categories ≠ "Uncategorized" := by
  decide

/-- Claim C7 amended: the normalized categories field equals the tag terms
joined with `", "` whenever the tags key is present — an empty tag list
therefore yields the empty string — and equals `"Uncategorized"` exactly
when the tags key is absent. -/
theorem C7_categories_amended (sOf kOf : String → String) (e : RawEntry) :
    (e.tags = none → (extract_feed_entry sOf kOf e).categories = "Uncategorized")
    ∧ ∀ ts, e.tags = some ts →
        (extract_feed_entry sOf kOf e).categories = String.intercalate ", " ts := by
  constructor
  · intro h
    simp [extract_feed_entry, h]
  · intro ts h
    simp [extract_feed_entry, h]

/-- Witness for C7's amended theorem at a concrete two-tag entry. -/
theorem C7_witness :
    (extract_feed_entry cSentiment cKeywords c7entry).categories
      = String.intercalate ", " ["security", "ai"] :=
  (C7_categories_amended cSentiment cKeywords c7entry).2 ["security", "ai"] rfl

/-- Claim C8: the endpoint answers 400 exactly when the
whitespace-trimmed query is empty or longer than 100 characters (no
search is run then — the error is returned directly); otherwise it
returns the rows matching the sanitized query, and sanitization leaves
only word characters and whitespace. -/
theorem C8_search_endpoint_validation (st : Store) (q : String) :
    (search st q = Except.error 400 ↔
      (pythonStrip q).length = 0 ∨ (pythonStrip q).length > 100)
    ∧ ((pythonStrip q).length ≠ 0 → (pythonStrip q).length ≤ 100 →
        search st q = Except.ok (searchRows st (sanitize (pythonStrip q))))
    ∧ ∀ s : String,
        (sanitize s).data.all (fun c => isPyWordChar c || isPySpace c) = true := by
  refine ⟨?_, ?_, ?_⟩
  · unfold search
    simp only []
    split_ifs with h
    · exact ⟨fun _ => h, fun _ => rfl⟩
    · constructor
      · intro hc
        simp at hc
      · intro hp
        exact absurd hp h
  · intro h1 h2
    unfold search
    simp only []
    rw [if_neg (by push_neg; exact ⟨h1, h2⟩)]
  · intro s
    show (s.data.filter fun c => isPyWordChar c || isPySpace c).all
        (fun c => isPyWordChar c || isPySpace c) = true
    rw [List.all_eq_true]
    intro c hc
    exact (List.mem_filter.mp hc).2

/-- Witness for C8 at a concrete store: the empty query is rejected, a
valid query is answered from the sanitized search. -/
theorem C8_witness :
    (search c8store "" = Except.error 400 ↔
      (pythonStrip "").length = 0 ∨ (pythonStrip "").length > 100)
    ∧ search c8store " Storm " = Except.ok (searchRows c8store (sanitize (pythonStrip " Storm "))) :=
  ⟨(C8_search_endpoint_validation c8store "").1,
   (C8_search_endpoint_validation c8store " Storm ").2.1 (by decide) (by decide)⟩

/-- Claim C9: a non-empty query of at most 100 characters made only of
characters that are neither word characters nor whitespace passes
validation, is sanitized down to the empty string, and the empty `LIKE`
pattern `%%` matches every row, so the endpoint returns every record of
the store. -/
theorem C9_symbol_query_returns_all (st : Store) (q : String)
    (hne : q ≠ "") (hlen : q.length ≤ 100)
    (hsym : ∀ c ∈ q.data, isPyWordChar c = false ∧ isPySpace c = false) :
    search st q = Except.ok st.rows := by
  have hstrip : pythonStrip q = q := pythonStrip_eq_self q (fun c hc => (hsym c hc).2)
  have hsan : sanitize q = "" := by
    show String.mk (q.data.filter fun c => isPyWordChar c || isPySpace c) = ""
    have hnil : q.data.filter (fun c => isPyWordChar c || isPySpace c) = [] := by
      rw [List.filter_eq_nil_iff]
      intro c hc
      simp [(hsym c hc).1, (hsym c hc).2]
    rw [hnil]
  have hlen0 : q.length ≠ 0 := by
    intro h0
    apply hne
    obtain ⟨l⟩ := q
    have hl : l = [] := List.length_eq_zero.mp h0
    rw [hl]
  unfold search
  simp only []
  rw [hstrip, if_neg (by push_neg; exact ⟨hlen0, by omega⟩)]
  rw [hsan, searchRows_empty_query]

/-- Witness for C9: the query of three exclamation marks returns the
whole two-record store. -/
theorem C9_witness : search c9store "!!!" = Except.ok c9store.rows :=
  C9_symbol_query_returns_all c9store "!!!" (by decide) (by decide) (by decide)

/-- Claim C10: every raw entry without a published field is normalized to
the sentinel `published_at` value `"Unknown Date"`; upserting two such
entries leaves exactly one record under that key, and that record's title
is the second entry's title — the later undated entry overwrote the
earlier one. -/
theorem C10_undated_entries_collapse (sOf kOf : String → String) (st : Store)
    (e1 e2 : RawEntry) (hU : UniqKeys st)
    (h1 : e1.published = none) (h2 : e2.published = none) :
    (extract_feed_entry sOf kOf e1).published_at = "Unknown Date"
    ∧ (extract_feed_entry sOf kOf e2).published_at = "Unknown Date"
    ∧ (upsert (upsert st (extract_feed_entry sOf kOf e1)).1
        (extract_feed_entry sOf kOf e2)).1.rows.countP
        (fun r => r.published_at == "Unknown Date") = 1
    ∧ ∀ r ∈ (upsert (upsert st (extract_feed_entry sOf kOf e1)).1
          (extract_feed_entry sOf kOf e2)).1.rows,
        r.published_at = "Unknown Date" →
        r.title = (extract_feed_entry sOf kOf e2).title := by
  have hp1 : (extract_feed_entry sOf kOf e1).published_at = "Unknown Date" := by
    simp [extract_feed_entry, h1]
  have hp2 : (extract_feed_entry sOf kOf e2).published_at = "Unknown Date" := by
    simp [extract_feed_entry, h2]
  have hU1 := upsert_preserves_uniq st (extract_feed_entry sOf kOf e1) hU
  refine ⟨hp1, hp2, ?_, ?_⟩
  · have hc := upsert_countP (upsert st (extract_feed_entry sOf kOf e1)).1
      (extract_feed_entry sOf kOf e2) hU1
    rw [hp2] at hc
    exact hc
  · intro r hr hrk
    have hex : ∃ r0 ∈ (upsert st (extract_feed_entry sOf kOf e1)).1.rows,
        r0.published_at = (extract_feed_entry sOf kOf e2).published_at := by
      rw [hp2]
      have hk1 := upsert_key_exists st (extract_feed_entry sOf kOf e1)
      rw [hp1] at hk1
      exact hk1
    obtain ⟨r1, hmem1, hk1, hre⟩ :=
      upsert_overwrite _ _ hex r hr (by rw [hp2, hrk])
    rw [hre]
    rfl

/-- Witness for C10 at two concrete undated entries over the empty store. -/
theorem C10_witness :
    (extract_feed_entry cSentiment cKeywords c10e1).published_at = "Unknown Date"
    ∧ (extract_feed_entry cSentiment cKeywords c10e2).published_at = "Unknown Date"
    ∧ (upsert (upsert emptyStore (extract_feed_entry cSentiment cKeywords c10e1)).1
        (extract_feed_entry cSentiment cKeywords c10e2)).1.rows.countP
        (fun r => r.published_at == "Unknown Date") = 1
    ∧ ∀ r ∈ (upsert (upsert emptyStore (extract_feed_entry cSentiment cKeywords c10e1)).1
          (extract_feed_entry cSentiment cKeywords c10e2)).1.rows,
        r.published_at = "Unknown Date" →
        r.title = (extract_feed_entry cSentiment cKeywords c10e2).title :=
  C10_undated_entries_collapse cSentiment cKeywords emptyStore c10e1 c10e2
    (by unfold UniqKeys; decide) rfl rfl

end BlogMain
